import Mathlib

/-
  Verification development for the code-based rendering visualization tool.

  The development shallowly embeds the two-stage pipeline of the repository:
  structural extraction (libs/analyzeReactComponent.ts) and graph assembly
  (shared/libs/buildGraph/buildGraph.ts, the canonical depth-grouped variant,
  and libs/graphModel.ts, the flat variant).  Pure functions of the source are
  translated into Lean functions; the Babel AST fragments the functions consume
  are modelled by explicit inductive types.  All coordinates in the source are
  small non-negative integers (multiples and sums of 80, 220, 50, 40, 32, 120),
  so they are embedded as Nat.
-/

namespace RenderViz

/-! ## String utilities mirroring the JavaScript string operations used -/

/-- JS Array.from(new Set(xs)) keeps the first occurrence of each element. -/
def uniqFirstGo (seen : List String) : List String → List String
  | [] => []
  | x :: xs => if x ∈ seen then uniqFirstGo seen xs else x :: uniqFirstGo (x :: seen) xs

/-- First-occurrence deduplication, the semantics of Array.from(new Set(xs)). -/
def uniqFirst (l : List String) : List String := uniqFirstGo [] l

/-- Substring occurrence on character lists; empty pattern always occurs. -/
def charSeqContains : List Char → List Char → Bool
  | [], pat => pat.isEmpty
  | c :: rest, pat => pat.isPrefixOf (c :: rest) || charSeqContains rest pat

/-- JS String.prototype.includes. -/
def strContains (s pat : String) : Bool := charSeqContains s.data pat.data

/-- JS String.prototype.startsWith, written on the character list so that it
    evaluates inside the kernel. -/
def strStartsWith (s pre : String) : Bool := pre.data.isPrefixOf s.data

/-- JS String.prototype.endsWith, written on the character list. -/
def strEndsWith (s post : String) : Bool := post.data.isSuffixOf s.data

/-- Removal of the first n characters, written on the character list. -/
def strDrop (s : String) (n : Nat) : String := String.mk (s.data.drop n)

/-- JS String.prototype.toLowerCase, restricted to the per-character map
    (coincides with JS on the ASCII names the analyzer handles). -/
def strToLower (s : String) : String := String.mk (s.data.map Char.toLower)

/-- JS truthiness of a string-or-null value: non-null and non-empty. -/
def strTruthy (o : Option String) : Bool :=
  match o with
  | some s => !(s = "")
  | none => false

/-- The base name of a file with the regex replace(/\.[^\/.]+\x24/, "") of
    pickPrimaryComponent: remove the final dot together with everything after
    it when at least one character follows the final dot and none of those
    characters is a slash or a dot. -/
def stripExt (s : String) : String :=
  let rev := s.data.reverse
  match rev.findIdx? (fun c => c = '.') with
  | none => s
  | some i =>
    if 1 ≤ i ∧ (rev.take i).all (fun c => !(c = '/')) then
      String.mk ((rev.drop (i + 1)).reverse)
    else s

/-! ## Analyzer data model (libs/analyzeReactComponent.ts) -/

inductive HookKind where
  | useState
  | useRef
  | useReducer
  | useEffect
  | useLayoutEffect
  | useCallback
  | useMemo
  | zustand
  | reactQuery
  | custom
deriving DecidableEq

inductive StateScope where
  | localScope
  | globalScope
  | externalScope
deriving DecidableEq

structure SourceLoc where
  line : Nat
  column : Nat
deriving DecidableEq

/-- AnalyzedHook; the meta record of the source holds one entry, importSource. -/
structure AnalyzedHook where
  id : String
  name : String
  hookKind : HookKind
  scope : StateScope
  definedAt : Option SourceLoc
  importSource : Option String
deriving DecidableEq

structure EffectDependency where
  name : String
  isGlobal : Bool
deriving DecidableEq

/-- The hookKind field of AnalyzedEffect is restricted to the two effect kinds. -/
inductive EffKind where
  | useEffect
  | useLayoutEffect
deriving DecidableEq

def EffKind.str : EffKind → String
  | .useEffect => "useEffect"
  | .useLayoutEffect => "useLayoutEffect"

structure AnalyzedEffect where
  id : String
  hookKind : EffKind
  dependencies : List EffectDependency
  setters : List String
  refs : List String
  definedAt : Option SourceLoc
deriving DecidableEq

structure AnalyzedCallback where
  id : String
  name : Option String
  dependencies : List String
  setters : List String
  definedAt : Option SourceLoc
deriving DecidableEq

/-- The analyzer's jsx fact (no parent link). -/
structure AnalyzedJsxNode where
  id : String
  component : String
  depth : Nat
  props : List String
  definedAt : Option SourceLoc
deriving DecidableEq

/-- The Mapping namespace's jsx fact, which additionally records parentId. -/
structure MappingJsxNode where
  id : String
  component : String
  depth : Nat
  parentId : Option String
  props : List String
  definedAt : Option SourceLoc
deriving DecidableEq

structure ComponentAnalysis where
  source : String
  fileName : Option String
  componentName : Option String
  hooks : List AnalyzedHook
  effects : List AnalyzedEffect
  callbacks : List AnalyzedCallback
  jsxNodes : List AnalyzedJsxNode
  exportedComponents : List String
  defaultExport : Option String
  errors : List String
deriving DecidableEq

structure MappingResult where
  source : String
  fileName : Option String
  componentName : Option String
  hooks : List AnalyzedHook
  effects : List AnalyzedEffect
  callbacks : List AnalyzedCallback
  jsxNodes : List MappingJsxNode
  exportedComponents : List String
  defaultExport : Option String
  errors : List String
  calledVariableNames : List String
deriving DecidableEq

/-! ## Export resolution and primary component selection -/

structure ExportInfo where
  defaultExport : Option String
  namedExports : List String
deriving DecidableEq

/-- pickPrimaryComponent of libs/analyzeReactComponent.ts.  The two truthiness
    tests of the source (on exportInfo.defaultExport and on fileName) are JS
    truthiness on a string-or-null value. -/
def pickPrimaryComponent (info : ExportInfo) (fileName : Option String) : Option String :=
  if strTruthy info.defaultExport then info.defaultExport
  else if info.namedExports.length = 1 then info.namedExports.head?
  else
    let viaFile : Option String :=
      if strTruthy fileName then
        match fileName with
        | some f => info.namedExports.find? (fun name => name == stripExt f)
        | none => none
      else none
    match viaFile with
    | some matched => some matched
    | none => info.namedExports.head?

/-- Modelled from the spec sentence of claim C4: the order of preference of the
    primary component selector, stated exactly as the specification words it.
    Used only to be compared with pickPrimaryComponent. -/
def pickPrimarySpec (info : ExportInfo) (fileName : Option String) : Option String :=
  match info.defaultExport with
  | some d => some d
  | none =>
    if info.namedExports.length = 1 then info.namedExports.head?
    else
      match fileName with
      | some f =>
        match info.namedExports.find? (fun name => name == stripExt f) with
        | some matched => some matched
        | none => info.namedExports.head?
      | none => info.namedExports.head?

/-! ## Hook classification -/

/-- classifyHookKind of libs/analyzeReactComponent.ts. -/
def classifyHookKind (calleeName : String) (importSource : Option String) : HookKind :=
  if calleeName = "useState" then .useState
  else if calleeName = "useRef" then .useRef
  else if calleeName = "useReducer" then .useReducer
  else if calleeName = "useEffect" then .useEffect
  else if calleeName = "useLayoutEffect" then .useLayoutEffect
  else if calleeName = "useCallback" then .useCallback
  else if calleeName = "useMemo" then .useMemo
  else if strStartsWith calleeName "use" && strEndsWith calleeName "Store"
          && strTruthy importSource
          && strContains (importSource.getD "") "zustand" then .zustand
  else if strTruthy importSource
          && (strContains (importSource.getD "") "reactQuery"
              || strContains (importSource.getD "") "@tanstack/react-query") then
    let lower := strToLower calleeName
    if strContains lower "mutation" then .reactQuery
    else if strContains lower "query" then .reactQuery
    else .custom
  else .custom

/-- The scope ternary of analyzeComponentBody: zustand and react-query hooks
    are global, every other hook is local. -/
def scopeFor (k : HookKind) : StateScope :=
  if k = .zustand ∨ k = .reactQuery then .globalScope else .localScope

/-- The seven builtin hook names that classifyHookKind matches exactly. -/
def builtinHookNames : List String :=
  ["useState", "useRef", "useReducer", "useEffect", "useLayoutEffect", "useCallback", "useMemo"]

/-! ## JSX markup model and analyzeJsxTree

The declarative markup consumed by analyzeJsxTree is modelled by an inductive
tree of elements.  A JSXOpeningElement name is an identifier, a member chain or
a namespaced name; an attribute either wraps a bare identifier in an expression
container (captured as a prop) or is anything else (ignored).  Children are the
JSXElement children of an element; non-element children (text, containers that
hold no element) contribute nothing to analyzeJsxTree and are not modelled.
Source locations are abstracted away (definedAt is recorded as none).
-/

inductive JsxName where
  | ident (s : String)
  | member (base : String) (props : List String)
  | namespaced (ns n : String)
deriving DecidableEq

/-- getJsxName of analyzeJsxTree: identifier name, dot-joined member chain, or
    namespace-colon-name. -/
def getJsxName : JsxName → String
  | .ident s => s
  | .member base props => String.intercalate "." (base :: props)
  | .namespaced ns n => ns ++ ":" ++ n

inductive JsxAttr where
  | static
  | exprIdent (name : String)
  | exprOther
  | spread
deriving DecidableEq

inductive Jsx where
  | el (name : JsxName) (attrs : List JsxAttr) (children : List Jsx)

def Jsx.name : Jsx → JsxName
  | .el n _ _ => n

/-- The prop identifiers of one opening element: attribute values that are
    expression containers wrapping a bare identifier, deduplicated keeping the
    first occurrence (Array.from(new Set(propIdentifiers))). -/
def Jsx.propNames : Jsx → List String
  | .el _ attrs _ => uniqFirst (attrs.filterMap (fun a =>
      match a with
      | .exprIdent n => some n
      | _ => none))

/-
traverseJsx body of analyzeJsxTree: visiting an element pushes it at the given
depth and then runs path.traverse on it, which fires the JSXElement visitor for
EVERY strict descendant element in document pre-order - Babel's path.traverse
descends the whole subtree because the visitor never calls path.skip.  Each
fired visit re-enters traverseJsx at depth + 1.  The three mutually recursive
functions below are that semantics written structurally:

  emitJsx e d      = the visit of element e at depth d
                     (push (e, d), then re-enter each strict descendant at d+1);
  emitDesc e d     = the re-entrant visits of all strict descendants of e,
                     each entered at depth d, in document pre-order;
  emitAll cs d     = emitDesc unfolded over a child list: for each child c,
                     the visit of c itself and then the visits of the strict
                     descendants of c, all entered at depth d.

So emitDesc (el n a cs) d = emitAll cs d, and the pre-order of the strict
descendants of a child list c :: rest is c, the descendants of c, then the
descendants of rest, giving the emitAll equation.
-/
mutual

def emitJsx (e : Jsx) (d : Nat) : List (Jsx × Nat) :=
  match e with
  | .el n a cs => (Jsx.el n a cs, d) :: emitAll cs (d + 1)

def emitDesc (e : Jsx) (d : Nat) : List (Jsx × Nat) :=
  match e with
  | .el _ _ cs => emitAll cs d

def emitAll (cs : List Jsx) (d : Nat) : List (Jsx × Nat) :=
  match cs with
  | [] => []
  | c :: rest => emitJsx c d ++ emitDesc c d ++ emitAll rest d

end

/-- analyzeJsxTree: the roots (elements whose syntactic parent is not itself a
    JSXElement) are visited at depth 0 into one shared result array; the id of
    the i-th pushed fact is jsx-(i+1) because the source computes it from
    result.length + 1. -/
def analyzeJsxTree (roots : List Jsx) : List AnalyzedJsxNode :=
  let pairs := roots.flatMap (fun r => emitJsx r 0)
  pairs.enum.map (fun p =>
    { id := "jsx-" ++ toString (p.1 + 1)
      component := getJsxName p.2.1.name
      depth := p.2.2
      props := p.2.1.propNames
      definedAt := none })

/-! ## Effect and callback fact extraction

analyzeEffectCall reads the dependency array (second argument) and walks the
callback body (first argument).  The dependency array is modelled as the list
of its elements when it is an array literal (none otherwise); the body walk is
modelled as the sequence of CallExpression and MemberExpression visits the
Babel traversal fires, in document order.
-/

inductive DepElem where
  | ident (name : String)
  | other
deriving DecidableEq

inductive BodyEvent where
  | callIdent (name : String)
  | callMember (obj prop : String)
  | memberAccess (obj : String)
deriving DecidableEq

/-- The setter-name test of the body walks: the regex matches names that start
    with the literal letters s, e, t followed by an ASCII capital. -/
def isSetterName (s : String) : Bool :=
  match s.data with
  | 's' :: 'e' :: 't' :: c :: _ => decide ('A' ≤ c ∧ c ≤ 'Z')
  | _ => false

/-- Dependency collection of analyzeEffectCall: only direct identifier elements
    of the literal array are kept, in order, WITHOUT deduplication; isGlobal
    records membership of the running global-name set. -/
def collectDeps (elements : List DepElem) (globalNames : List String) : List EffectDependency :=
  elements.filterMap (fun el =>
    match el with
    | .ident n => some { name := n, isGlobal := globalNames.contains n }
    | .other => none)

/-- Setter collection of the effect body walk: direct calls whose callee name
    matches the setter pattern, plus calls of a mutate or mutateAsync member on
    an identifier, recorded as object.method; deduplicated first-seen. -/
def collectSetters (events : List BodyEvent) : List String :=
  uniqFirst (events.filterMap (fun ev =>
    match ev with
    | .callIdent n => if isSetterName n then some n else none
    | .callMember obj prop =>
      if prop = "mutate" ∨ prop = "mutateAsync" then some (obj ++ "." ++ prop) else none
    | .memberAccess _ => none))

/-- Ref collection of the effect body walk: member accesses on identifiers
    whose name ends in Ref; deduplicated first-seen. -/
def collectRefs (events : List BodyEvent) : List String :=
  uniqFirst (events.filterMap (fun ev =>
    match ev with
    | .memberAccess obj => if strEndsWith obj "Ref" then some obj else none
    | _ => none))

/-- analyzeEffectCall: depArray is the element list of the second argument when
    that argument is an array literal. -/
def analyzeEffectCall (effectId : String) (k : EffKind) (depArray : Option (List DepElem))
    (bodyEvents : List BodyEvent) (globalNames : List String) (loc : Option SourceLoc) :
    AnalyzedEffect :=
  { id := effectId
    hookKind := k
    dependencies := match depArray with
      | some els => collectDeps els globalNames
      | none => []
    setters := collectSetters bodyEvents
    refs := collectRefs bodyEvents
    definedAt := loc }

/-- analyzeUseCallbackCall: same dependency handling (though deduplicated), only
    the direct-setter rule for mutations, and the name of the enclosing simple
    variable binding when the call is its initializer. -/
def analyzeUseCallbackCall (callbackId : String) (depArray : Option (List DepElem))
    (bodyEvents : List BodyEvent) (boundName : Option String) (loc : Option SourceLoc) :
    AnalyzedCallback :=
  { id := callbackId
    name := boundName
    dependencies := match depArray with
      | some els => uniqFirst (els.filterMap (fun el =>
          match el with
          | .ident n => some n
          | .other => none))
      | none => []
    setters := uniqFirst (bodyEvents.filterMap (fun ev =>
      match ev with
      | .callIdent n => if isSetterName n then some n else none
      | _ => none))
    definedAt := loc }

/-! ## Graph data model (libs/graphModel.ts and the BuildGraph declarations)

GraphEdge carries exactly the fields of the source interface: an identity, two
endpoint descriptors, a kind and an optional label.  The interface has no meta
or flag field.  The TS field names from and to are reserved words in Lean and
are embedded as fromEp and toEp.  The colX field variable is likewise reserved
and embedded as variableCol.
-/

inductive GraphNodeKind where
  | independent
  | state
  | effect
  | variableNode
  | jsx
  | external
deriving DecidableEq

def GraphNodeKind.str : GraphNodeKind → String
  | .independent => "independent"
  | .state => "state"
  | .effect => "effect"
  | .variableNode => "variable"
  | .jsx => "jsx"
  | .external => "external"

inductive GraphEdgeKind where
  | flow
  | stateDependency
  | stateMutation
  | external
deriving DecidableEq

/-- The free-form meta record carried by a graph node, one constructor per
    shape the two builders actually store. -/
inductive NodeMeta where
  | hookMeta (hookKind : HookKind) (scope : StateScope)
  | effectMeta (e : AnalyzedEffect)
  | callbackMeta (cb : AnalyzedCallback)
  | jsxMeta (depth : Nat) (props : List String)
deriving DecidableEq

structure GraphNode where
  id : String
  label : String
  kind : GraphNodeKind
  x : Nat
  y : Nat
  width : Nat
  height : Nat
  meta : Option NodeMeta
deriving DecidableEq

structure EdgeEndpoint where
  nodeId : String
  x : Nat
  y : Nat
deriving DecidableEq

structure GraphEdge where
  id : String
  fromEp : EdgeEndpoint
  toEp : EdgeEndpoint
  kind : GraphEdgeKind
  label : Option String
deriving DecidableEq

structure ColX where
  independent : Nat
  state : Nat
  variableCol : Nat
  effect : Nat
  jsx : Nat
deriving DecidableEq

structure GraphLayout where
  nodes : List GraphNode
  edges : List GraphEdge
  width : Nat
  height : Nat
  colX : ColX
deriving DecidableEq

/-- buildColumnX, identical in both builder files. -/
def buildColumnX : ColX :=
  let base := 80
  let gap := 220
  { independent := base
    state := base + gap
    variableCol := base + gap * 2
    effect := base + gap * 3
    jsx := base + gap * 4 }

/-- The item shape consumed by layoutColumnNodes. -/
structure LayoutItem where
  id : String
  label : String
  meta : Option NodeMeta
deriving DecidableEq

/-- layoutColumnNodes, identical in both builder files: the index-th item is
    placed at startY + index * gapY with the fixed 120 by 32 box, under the id
    kind-itemId. -/
def layoutColumnNodes (items : List LayoutItem) (kind : GraphNodeKind)
    (x startY gapY : Nat) : List GraphNode :=
  items.enum.map (fun p =>
    { id := kind.str ++ "-" ++ p.2.id
      label := p.2.label
      kind := kind
      x := x
      y := startY + p.1 * gapY
      width := 120
      height := 32
      meta := p.2.meta })

/-- The useRef hooks become independent-column items. -/
def independentItems (hooks : List AnalyzedHook) : List LayoutItem :=
  (hooks.filter (fun h => h.hookKind == HookKind.useRef)).map (fun h =>
    { id := h.id, label := h.name, meta := some (.hookMeta h.hookKind h.scope) })

/-- The useState, zustand and react-query hooks become state-column items; a
    global-scoped hook's label is decorated with the global suffix. -/
def stateItems (hooks : List AnalyzedHook) : List LayoutItem :=
  (hooks.filter (fun h =>
      h.hookKind == HookKind.useState || h.hookKind == HookKind.zustand
        || h.hookKind == HookKind.reactQuery)).map (fun h =>
    { id := h.id
      label := if h.scope == StateScope.globalScope then h.name ++ " (global)" else h.name
      meta := some (.hookMeta h.hookKind h.scope) })

/-- Effects then callbacks become effect-column items; an effect is labelled by
    its hook kind, a callback by its bound name or the callback placeholder. -/
def effectItems (effects : List AnalyzedEffect) (callbacks : List AnalyzedCallback) :
    List LayoutItem :=
  effects.map (fun e => { id := e.id, label := e.hookKind.str, meta := some (.effectMeta e) })
    ++ callbacks.map (fun cb =>
      { id := cb.id, label := cb.name.getD "callback", meta := some (.callbackMeta cb) })

def independentNodesOf (hooks : List AnalyzedHook) : List GraphNode :=
  layoutColumnNodes (independentItems hooks) .independent buildColumnX.independent 80 50

def stateNodesOf (hooks : List AnalyzedHook) : List GraphNode :=
  layoutColumnNodes (stateItems hooks) .state buildColumnX.state 80 40

def effectNodesOf (effects : List AnalyzedEffect) (callbacks : List AnalyzedCallback) :
    List GraphNode :=
  layoutColumnNodes (effectItems effects callbacks) .effect buildColumnX.effect 80 40

/-! ### JSX node placement -/

/-- The flat variant (libs/graphModel.ts): jsx facts are stacked like any other
    column with gap 32, in fact order. -/
def flatJsxNodes (jsxFacts : List AnalyzedJsxNode) : List GraphNode :=
  layoutColumnNodes
    (jsxFacts.map (fun j =>
      { id := j.id, label := j.component, meta := some (.jsxMeta j.depth j.props) }))
    .jsx buildColumnX.jsx 80 32

/-- The layout item of the depth-grouped variant. -/
structure JsxLayoutItem where
  id : String
  label : String
  depth : Nat
  meta : Option NodeMeta
deriving DecidableEq

/-- One step of building the depth map: a Map keyed by depth, keys in first
    insertion order, each item appended to its depth bucket. -/
def addToGroups : List (Nat × List JsxLayoutItem) → JsxLayoutItem →
    List (Nat × List JsxLayoutItem)
  | [], it => [(it.depth, [it])]
  | (d, xs) :: rest, it =>
    if d = it.depth then (d, xs ++ [it]) :: rest else (d, xs) :: addToGroups rest it

/-- Insertion into a depth-sorted group list, used to model sorting the map
    entries by depth ascending (the keys are pairwise distinct). -/
def insertGroup (g : Nat × List JsxLayoutItem) : List (Nat × List JsxLayoutItem) →
    List (Nat × List JsxLayoutItem)
  | [] => [g]
  | h :: t => if g.1 ≤ h.1 then g :: h :: t else h :: insertGroup g t

def sortGroups (l : List (Nat × List JsxLayoutItem)) : List (Nat × List JsxLayoutItem) :=
  l.foldr insertGroup []

/-- The depth-grouped variant (buildGraph.ts): facts are bucketed by depth, the
    buckets are ordered by depth ascending, a bucket at depth d starts at
    80 + d * 80 and stacks its items 32 apart.  The graph node id prefixes the
    logical fact id with jsx-. -/
def mappingJsxNodes (jsxFacts : List MappingJsxNode) : List GraphNode :=
  let items : List JsxLayoutItem := jsxFacts.map (fun j =>
    { id := j.id, label := j.component, depth := j.depth
      meta := some (.jsxMeta j.depth j.props) })
  let groups := sortGroups (items.foldl addToGroups [])
  groups.flatMap (fun g =>
    g.2.enum.map (fun p =>
      { id := "jsx-" ++ p.2.id
        label := p.2.label
        kind := .jsx
        x := buildColumnX.jsx
        y := 80 + g.1 * 80 + p.1 * 32
        width := 120
        height := 32
        meta := p.2.meta }))

/-! ### Edge construction -/

/-- Every edge starts at the right-edge vertical center of its source node and
    ends at the left-edge vertical center of its destination node. -/
def startEp (n : GraphNode) : EdgeEndpoint :=
  { nodeId := n.id, x := n.x + n.width / 2, y := n.y }

def endEp (n : GraphNode) : EdgeEndpoint :=
  { nodeId := n.id, x := n.x - n.width / 2, y := n.y }

def mkFlowEdge (frm tgt : GraphNode) (label : Option String) : GraphEdge :=
  { id := "flow-" ++ frm.id ++ "-" ++ tgt.id
    fromEp := startEp frm
    toEp := endEp tgt
    kind := .flow
    label := label }

/-- connectSequential, identical in both builder files: the index-th source
    node connects to the same-index destination node, or to the last
    destination node when the index is out of range; nothing is produced for a
    source index when the destination list is empty. -/
def connectSequential (fromNodes toNodes : List GraphNode) (label : Option String) :
    List GraphEdge :=
  fromNodes.enum.filterMap (fun p =>
    match (toNodes[p.1]?).orElse (fun _ => toNodes.getLast?) with
    | none => none
    | some tgt => some (mkFlowEdge p.2 tgt label))

/-- The guarded independent-to-state call of both builders. -/
def seqFlowEdges (ind st : List GraphNode) : List GraphEdge :=
  if 0 < ind.length ∧ 0 < st.length then connectSequential ind st none else []

def mkDepEdge (sn en : GraphNode) (depName : String) : GraphEdge :=
  { id := "dep-" ++ sn.id ++ "-" ++ en.id ++ "-" ++ depName
    fromEp := startEp sn
    toEp := endEp en
    kind := .stateDependency
    label := some depName }

/-- The setter-to-state-name derivation of both builders: a name matching the
    set-then-capital pattern is stripped of the set prefix and its following
    letter is lowercased; any other name is used verbatim. -/
def setterToState (s : String) : String :=
  match s.data with
  | 's' :: 'e' :: 't' :: c :: rest =>
    if 'A' ≤ c ∧ c ≤ 'Z' then String.mk (Char.toLower c :: rest) else s
  | _ => s

def mkMutEdge (idPre : String) (en sn : GraphNode) (setter : String) : GraphEdge :=
  { id := idPre ++ en.id ++ "-" ++ sn.id ++ "-" ++ setter
    fromEp := startEp en
    toEp := endEp sn
    kind := .stateMutation
    label := some setter }

/-- The per-setter mutation edges of one effect or callback node: the first
    state node whose label starts with the derived candidate receives the edge;
    a candidate matching no state node produces nothing. -/
def mutEdgesFor (st : List GraphNode) (en : GraphNode) (setters : List String)
    (idPre : String) : List GraphEdge :=
  setters.filterMap (fun setter =>
    (st.find? (fun n => strStartsWith n.label (setterToState setter))).map (fun sn =>
      mkMutEdge idPre en sn setter))

/-- The per-dependency edges of one effect node: the first state node whose
    label starts with the dependency name receives an edge to the effect. -/
def depEdgesFor (st : List GraphNode) (en : GraphNode) (deps : List EffectDependency) :
    List GraphEdge :=
  deps.filterMap (fun dep =>
    (st.find? (fun n => strStartsWith n.label dep.name)).map (fun sn =>
      mkDepEdge sn en dep.name))

/-- The effect loop of both builders: dependency edges then mutation edges per
    effect, skipping an effect whose node cannot be found. -/
def effectEdges (st eff : List GraphNode) (effects : List AnalyzedEffect) : List GraphEdge :=
  effects.flatMap (fun e =>
    match eff.find? (fun n => n.id == "effect-" ++ e.id) with
    | none => []
    | some en => depEdgesFor st en e.dependencies ++ mutEdgesFor st en e.setters "mut-")

/-- The callback loop of both builders: mutation edges only. -/
def callbackEdges (st eff : List GraphNode) (callbacks : List AnalyzedCallback) :
    List GraphEdge :=
  callbacks.flatMap (fun cb =>
    match eff.find? (fun n => n.id == "effect-" ++ cb.id) with
    | none => []
    | some cn => mutEdgesFor st cn cb.setters "cb-mut-")

def mkPropEdge (fn jn : GraphNode) (name : String) : GraphEdge :=
  { id := "jsx-prop-" ++ fn.id ++ "-" ++ jn.id ++ "-" ++ name
    fromEp := startEp fn
    toEp := endEp jn
    kind := .stateDependency
    label := some name }

/-- The props stored in a jsx node's meta, an empty list for any other meta. -/
def propsOfNode (n : GraphNode) : List String :=
  match n.meta with
  | some (.jsxMeta _ props) => props
  | _ => []

/-- The prop loop of both builders: for each captured prop identifier, the
    first state node whose label starts with it, else the first independent
    node whose label equals it, connects to the jsx node. -/
def propEdges (ind st jsxGN : List GraphNode) : List GraphEdge :=
  jsxGN.flatMap (fun jn =>
    (propsOfNode jn).filterMap (fun name =>
      match (st.find? (fun n => strStartsWith n.label name)).orElse
          (fun _ => ind.find? (fun n => n.label == name)) with
      | none => none
      | some fn => some (mkPropEdge fn jn name)))

/-! ### JSX tree edges (depth-grouped variant only) -/

/-- The logical id of a graph node, recovered by removing one leading jsx-
    (node.id.replace of the anchored jsx- pattern). -/
def logicalIdOf (n : GraphNode) : String :=
  if strStartsWith n.id "jsx-" then strDrop n.id 4 else n.id

/-- The jsxNodeMap lookup: the map is filled in node order and a later node
    with the same logical id overwrites an earlier one, so lookup returns the
    last matching node. -/
def jsxLookup (jsxGN : List GraphNode) (key : String) : Option GraphNode :=
  jsxGN.reverse.find? (fun n => logicalIdOf n == key)

def mkTreeEdge (pn cn : GraphNode) : GraphEdge :=
  { id := "jsx-tree-" ++ pn.id ++ "-" ++ cn.id
    fromEp := startEp pn
    toEp := endEp cn
    kind := .flow
    label := none }

/-- The parent-child loop of buildGraph.ts: for every jsx fact with a truthy
    parentId whose parent and child both resolve in the node map, one edge of
    kind flow with no label from the parent node to the child node. -/
def treeEdges (jsxGN : List GraphNode) (jsxFacts : List MappingJsxNode) : List GraphEdge :=
  jsxFacts.filterMap (fun j =>
    match j.parentId with
    | none => none
    | some pid =>
      if pid = "" then none
      else
        match jsxLookup jsxGN pid, jsxLookup jsxGN j.id with
        | some pn, some cn => some (mkTreeEdge pn cn)
        | _, _ => none)

/-! ### The two builders -/

/-- buildGraphFromMappingResult of shared/libs/buildGraph/buildGraph.ts. -/
def buildGraphFromMappingResult (mappingResult : Option MappingResult) : GraphLayout :=
  match mappingResult with
  | none =>
    { nodes := []
      edges := []
      width := buildColumnX.jsx + 200
      height := 800
      colX := buildColumnX }
  | some m =>
    let ind := independentNodesOf m.hooks
    let st := stateNodesOf m.hooks
    let eff := effectNodesOf m.effects m.callbacks
    let jsxGN := mappingJsxNodes m.jsxNodes
    { nodes := ind ++ st ++ eff ++ jsxGN
      edges := seqFlowEdges ind st ++ effectEdges st eff m.effects
        ++ callbackEdges st eff m.callbacks ++ propEdges ind st jsxGN
        ++ treeEdges jsxGN m.jsxNodes
      width := buildColumnX.jsx + 200
      height := (match jsxGN.getLast? with
        | some n => n.y
        | none => 600) + 120
      colX := buildColumnX }

/-- buildGraphFromAnalysis of libs/graphModel.ts (the flat variant, with no
    parent-child edges). -/
def buildGraphFromAnalysis (analysis : Option ComponentAnalysis) : GraphLayout :=
  match analysis with
  | none =>
    { nodes := []
      edges := []
      width := buildColumnX.jsx + 200
      height := 800
      colX := buildColumnX }
  | some a =>
    let ind := independentNodesOf a.hooks
    let st := stateNodesOf a.hooks
    let eff := effectNodesOf a.effects a.callbacks
    let jsxGN := flatJsxNodes a.jsxNodes
    { nodes := ind ++ st ++ eff ++ jsxGN
      edges := seqFlowEdges ind st ++ effectEdges st eff a.effects
        ++ callbackEdges st eff a.callbacks ++ propEdges ind st jsxGN
      width := buildColumnX.jsx + 200
      height := (match jsxGN.getLast? with
        | some n => n.y
        | none => 600) + 120
      colX := buildColumnX }

/-! ## Concrete inputs used by counterexamples and witnesses -/

/-- A useRef hook fact, as the analyzer records it for const boxRef = useRef(). -/
def exHookRef : AnalyzedHook :=
  { id := "hook-1", name := "boxRef", hookKind := .useRef, scope := .localScope
    definedAt := none, importSource := none }

/-- A useState hook fact for the state name count. -/
def exHookCount : AnalyzedHook :=
  { id := "hook-2", name := "count", hookKind := .useState, scope := .localScope
    definedAt := none, importSource := none }

/-- The second hook fact of const [count, setCount] = useState(0): the
    destructured setter name also yields a useState hook record. -/
def exHookSetCount : AnalyzedHook :=
  { id := "hook-2", name := "setCount", hookKind := .useState, scope := .localScope
    definedAt := none, importSource := none }

/-- A mapping result with one ref, one state and a two-element jsx tree whose
    child records its parent: div containing span. -/
def exMappingTree : MappingResult :=
  { source := "", fileName := none, componentName := some "App"
    hooks := [exHookRef, exHookCount]
    effects := [], callbacks := []
    jsxNodes :=
      [ { id := "jsx-1", component := "div", depth := 0, parentId := none
          props := [], definedAt := none }
      , { id := "jsx-2", component := "span", depth := 1, parentId := some "jsx-1"
          props := [], definedAt := none } ]
    exportedComponents := ["App"], defaultExport := some "App"
    errors := [], calledVariableNames := [] }

/-- A mapping result with a single state hook and no jsx at all. -/
def exMappingNoJsx : MappingResult :=
  { source := "", fileName := none, componentName := some "App"
    hooks := [exHookCount]
    effects := [], callbacks := [], jsxNodes := []
    exportedComponents := ["App"], defaultExport := some "App"
    errors := [], calledVariableNames := [] }

/-- A mapping result with one state hook named count and one effect whose body
    calls setCount, for exercising the mutation-edge rule. -/
def exMappingMutation : MappingResult :=
  { source := "", fileName := none, componentName := some "App"
    hooks := [{ exHookCount with id := "hook-1" }]
    effects :=
      [ { id := "effect-1", hookKind := .useEffect
          dependencies := [{ name := "count", isGlobal := false }]
          setters := ["setCount"], refs := [], definedAt := none } ]
    callbacks := [], jsxNodes := []
    exportedComponents := ["App"], defaultExport := some "App"
    errors := [], calledVariableNames := [] }

/-- A mapping result with two refs and one state, so that the second ref pairs
    with the last state node. -/
def exMappingTwoRefs : MappingResult :=
  { source := "", fileName := none, componentName := some "App"
    hooks :=
      [ exHookRef
      , { id := "hook-2", name := "otherRef", hookKind := .useRef, scope := .localScope
          definedAt := none, importSource := none }
      , { id := "hook-3", name := "count", hookKind := .useState, scope := .localScope
          definedAt := none, importSource := none } ]
    effects := [], callbacks := [], jsxNodes := []
    exportedComponents := ["App"], defaultExport := some "App"
    errors := [], calledVariableNames := [] }

/-- The effect fact the analyzer extracts from an effect whose dependency array
    is the literal [count, count] and whose body calls setCount: the dependency
    list keeps both occurrences because analyzeEffectCall deduplicates setters
    and refs but not dependencies. -/
def exEffectDupDeps : AnalyzedEffect :=
  analyzeEffectCall "effect-1" .useEffect
    (some [.ident "count", .ident "count"]) [.callIdent "setCount"] [] none

/-- The analysis of a component declaring const [count, setCount] = useState(0)
    and the duplicate-dependency effect above. -/
def exAnalysisDupDeps : ComponentAnalysis :=
  { source := "", fileName := none, componentName := some "App"
    hooks := [{ exHookCount with id := "hook-1" }, exHookSetCount]
    effects := [exEffectDupDeps]
    callbacks := [], jsxNodes := []
    exportedComponents := ["App"], defaultExport := some "App"
    errors := [] }

/-- A node list owns an id when one of its nodes carries it. -/
def hasNodeId (ns : List GraphNode) (s : String) : Prop :=
  ∃ n, n ∈ ns ∧ n.id = s

/-! ## Helper lemmas: characterizations of the edge groups -/

theorem mem_connectSequential {A B : List GraphNode} {l : Option String} {ed : GraphEdge} :
    ed ∈ connectSequential A B l ↔
      ∃ (i : Nat) (a tgt : GraphNode),
        A[i]? = some a ∧ ((B[i]?).orElse (fun _ => B.getLast?)) = some tgt
          ∧ ed = mkFlowEdge a tgt l := by
  unfold connectSequential
  rw [List.mem_filterMap]
  constructor
  · rintro ⟨⟨i, a⟩, hmem, hf⟩
    rw [List.mem_enum_iff_getElem?] at hmem
    cases hor : (B[i]?).orElse (fun _ => B.getLast?) with
    | none => simp [hor] at hf
    | some tgt =>
      simp only [hor] at hf
      exact ⟨i, a, tgt, hmem, hor, (Option.some_inj.mp hf).symm⟩
  · rintro ⟨i, a, tgt, h1, h2, rfl⟩
    refine ⟨(i, a), List.mem_enum_iff_getElem?.mpr h1, ?_⟩
    simp only [h2]

theorem seqFlowEdges_subset {A B : List GraphNode} {ed : GraphEdge}
    (h : ed ∈ seqFlowEdges A B) : ed ∈ connectSequential A B none := by
  unfold seqFlowEdges at h
  split at h
  · exact h
  · simp at h

theorem seqFlowEdges_eq_of_ne {A B : List GraphNode} (ha : 0 < A.length) (hb : 0 < B.length) :
    seqFlowEdges A B = connectSequential A B none := by
  unfold seqFlowEdges
  rw [if_pos ⟨ha, hb⟩]

theorem mem_mutEdgesFor {st : List GraphNode} {en : GraphNode} {setters : List String}
    {p : String} {ed : GraphEdge} :
    ed ∈ mutEdgesFor st en setters p ↔
      ∃ s, s ∈ setters ∧ ∃ sn,
        st.find? (fun n => strStartsWith n.label (setterToState s)) = some sn
          ∧ ed = mkMutEdge p en sn s := by
  unfold mutEdgesFor
  rw [List.mem_filterMap]
  constructor
  · rintro ⟨s, hs, hf⟩
    rcases Option.map_eq_some'.mp hf with ⟨sn, hfind, hed⟩
    exact ⟨s, hs, sn, hfind, hed.symm⟩
  · rintro ⟨s, hs, sn, hfind, rfl⟩
    exact ⟨s, hs, by rw [hfind]; rfl⟩

theorem mem_depEdgesFor {st : List GraphNode} {en : GraphNode} {deps : List EffectDependency}
    {ed : GraphEdge} :
    ed ∈ depEdgesFor st en deps ↔
      ∃ dep, dep ∈ deps ∧ ∃ sn,
        st.find? (fun n => strStartsWith n.label dep.name) = some sn
          ∧ ed = mkDepEdge sn en dep.name := by
  unfold depEdgesFor
  rw [List.mem_filterMap]
  constructor
  · rintro ⟨dep, hd, hf⟩
    rcases Option.map_eq_some'.mp hf with ⟨sn, hfind, hed⟩
    exact ⟨dep, hd, sn, hfind, hed.symm⟩
  · rintro ⟨dep, hd, sn, hfind, rfl⟩
    exact ⟨dep, hd, by rw [hfind]; rfl⟩

theorem mem_effectEdges {st eff : List GraphNode} {effects : List AnalyzedEffect}
    {ed : GraphEdge} :
    ed ∈ effectEdges st eff effects ↔
      ∃ e, e ∈ effects ∧ ∃ en,
        eff.find? (fun n => n.id == "effect-" ++ e.id) = some en
          ∧ (ed ∈ depEdgesFor st en e.dependencies ∨ ed ∈ mutEdgesFor st en e.setters "mut-") := by
  unfold effectEdges
  rw [List.mem_flatMap]
  constructor
  · rintro ⟨e, he, hed⟩
    cases hfind : eff.find? (fun n => n.id == "effect-" ++ e.id) with
    | none => rw [hfind] at hed; simp at hed
    | some en =>
      rw [hfind] at hed
      exact ⟨e, he, en, hfind, List.mem_append.mp hed⟩
  · rintro ⟨e, he, en, hfind, hor⟩
    exact ⟨e, he, by rw [hfind]; exact List.mem_append.mpr hor⟩

theorem mem_callbackEdges {st eff : List GraphNode} {callbacks : List AnalyzedCallback}
    {ed : GraphEdge} :
    ed ∈ callbackEdges st eff callbacks ↔
      ∃ cb, cb ∈ callbacks ∧ ∃ cn,
        eff.find? (fun n => n.id == "effect-" ++ cb.id) = some cn
          ∧ ed ∈ mutEdgesFor st cn cb.setters "cb-mut-" := by
  unfold callbackEdges
  rw [List.mem_flatMap]
  constructor
  · rintro ⟨cb, hc, hed⟩
    cases hfind : eff.find? (fun n => n.id == "effect-" ++ cb.id) with
    | none => rw [hfind] at hed; simp at hed
    | some cn =>
      rw [hfind] at hed
      exact ⟨cb, hc, cn, hfind, hed⟩
  · rintro ⟨cb, hc, cn, hfind, hmem⟩
    exact ⟨cb, hc, by rw [hfind]; exact hmem⟩

theorem mem_propEdges {ind st jsxGN : List GraphNode} {ed : GraphEdge} :
    ed ∈ propEdges ind st jsxGN ↔
      ∃ jn, jn ∈ jsxGN ∧ ∃ name, name ∈ propsOfNode jn ∧ ∃ fn,
        ((st.find? (fun n => strStartsWith n.label name)).orElse
            (fun _ => ind.find? (fun n => n.label == name))) = some fn
          ∧ ed = mkPropEdge fn jn name := by
  unfold propEdges
  rw [List.mem_flatMap]
  constructor
  · rintro ⟨jn, hj, hed⟩
    rw [List.mem_filterMap] at hed
    rcases hed with ⟨name, hn, hf⟩
    cases hor : (st.find? (fun n => strStartsWith n.label name)).orElse
        (fun _ => ind.find? (fun n => n.label == name)) with
    | none => simp [hor] at hf
    | some fn =>
      simp only [hor] at hf
      exact ⟨jn, hj, name, hn, fn, hor, (Option.some_inj.mp hf).symm⟩
  · rintro ⟨jn, hj, name, hn, fn, hor, rfl⟩
    refine ⟨jn, hj, List.mem_filterMap.mpr ⟨name, hn, ?_⟩⟩
    simp only [hor]

theorem mem_treeEdges {jsxGN : List GraphNode} {facts : List MappingJsxNode} {ed : GraphEdge} :
    ed ∈ treeEdges jsxGN facts ↔
      ∃ j, j ∈ facts ∧ ∃ pid, j.parentId = some pid ∧ ¬(pid = "") ∧ ∃ pn cn,
        jsxLookup jsxGN pid = some pn ∧ jsxLookup jsxGN j.id = some cn
          ∧ ed = mkTreeEdge pn cn := by
  unfold treeEdges
  rw [List.mem_filterMap]
  constructor
  · rintro ⟨j, hj, hf⟩
    cases hp : j.parentId with
    | none => simp [hp] at hf
    | some pid =>
      simp only [hp] at hf
      by_cases hemp : pid = ""
      · rw [if_pos hemp] at hf; simp at hf
      · rw [if_neg hemp] at hf
        cases hpn : jsxLookup jsxGN pid with
        | none => simp [hpn] at hf
        | some pn =>
          cases hcn : jsxLookup jsxGN j.id with
          | none => simp [hpn, hcn] at hf
          | some cn =>
            simp only [hpn, hcn] at hf
            exact ⟨j, hj, pid, hp, hemp, pn, cn, hpn, hcn, (Option.some_inj.mp hf).symm⟩
  · rintro ⟨j, hj, pid, hp, hemp, pn, cn, hpn, hcn, rfl⟩
    refine ⟨j, hj, ?_⟩
    simp only [hp, if_neg hemp, hpn, hcn]

/-! ## Helper lemmas: unfolding the two builders -/

theorem mappingEdges_eq (m : MappingResult) :
    (buildGraphFromMappingResult (some m)).edges =
      seqFlowEdges (independentNodesOf m.hooks) (stateNodesOf m.hooks)
        ++ effectEdges (stateNodesOf m.hooks) (effectNodesOf m.effects m.callbacks) m.effects
        ++ callbackEdges (stateNodesOf m.hooks) (effectNodesOf m.effects m.callbacks) m.callbacks
        ++ propEdges (independentNodesOf m.hooks) (stateNodesOf m.hooks)
          (mappingJsxNodes m.jsxNodes)
        ++ treeEdges (mappingJsxNodes m.jsxNodes) m.jsxNodes := rfl

theorem mappingNodes_eq (m : MappingResult) :
    (buildGraphFromMappingResult (some m)).nodes =
      independentNodesOf m.hooks ++ stateNodesOf m.hooks
        ++ effectNodesOf m.effects m.callbacks ++ mappingJsxNodes m.jsxNodes := rfl

theorem mappingHeight_eq (m : MappingResult) :
    (buildGraphFromMappingResult (some m)).height =
      (match (mappingJsxNodes m.jsxNodes).getLast? with
        | some n => n.y
        | none => 600) + 120 := rfl

theorem analysisEdges_eq (a : ComponentAnalysis) :
    (buildGraphFromAnalysis (some a)).edges =
      seqFlowEdges (independentNodesOf a.hooks) (stateNodesOf a.hooks)
        ++ effectEdges (stateNodesOf a.hooks) (effectNodesOf a.effects a.callbacks) a.effects
        ++ callbackEdges (stateNodesOf a.hooks) (effectNodesOf a.effects a.callbacks) a.callbacks
        ++ propEdges (independentNodesOf a.hooks) (stateNodesOf a.hooks)
          (flatJsxNodes a.jsxNodes) := rfl

theorem analysisNodes_eq (a : ComponentAnalysis) :
    (buildGraphFromAnalysis (some a)).nodes =
      independentNodesOf a.hooks ++ stateNodesOf a.hooks
        ++ effectNodesOf a.effects a.callbacks ++ flatJsxNodes a.jsxNodes := rfl

/-! ## Helper lemmas: edge kinds and endpoints -/

theorem kind_of_mkFlowEdge (a tgt : GraphNode) (l : Option String) :
    (mkFlowEdge a tgt l).kind = .flow := rfl

theorem kind_of_mem_seqFlowEdges {A B : List GraphNode} {ed : GraphEdge}
    (h : ed ∈ seqFlowEdges A B) : ed.kind = .flow := by
  rcases mem_connectSequential.mp (seqFlowEdges_subset h) with ⟨i, a, tgt, _, _, rfl⟩
  rfl

theorem kind_of_mem_effectEdges {st eff : List GraphNode} {effects : List AnalyzedEffect}
    {ed : GraphEdge} (h : ed ∈ effectEdges st eff effects) :
    ed.kind = .stateDependency ∨ ed.kind = .stateMutation := by
  rcases mem_effectEdges.mp h with ⟨e, _, en, _, hor | hor⟩
  · rcases mem_depEdgesFor.mp hor with ⟨dep, _, sn, _, rfl⟩
    exact Or.inl rfl
  · rcases mem_mutEdgesFor.mp hor with ⟨s, _, sn, _, rfl⟩
    exact Or.inr rfl

theorem kind_of_mem_callbackEdges {st eff : List GraphNode} {callbacks : List AnalyzedCallback}
    {ed : GraphEdge} (h : ed ∈ callbackEdges st eff callbacks) : ed.kind = .stateMutation := by
  rcases mem_callbackEdges.mp h with ⟨cb, _, cn, _, hmem⟩
  rcases mem_mutEdgesFor.mp hmem with ⟨s, _, sn, _, rfl⟩
  rfl

theorem kind_of_mem_propEdges {ind st jsxGN : List GraphNode} {ed : GraphEdge}
    (h : ed ∈ propEdges ind st jsxGN) : ed.kind = .stateDependency := by
  rcases mem_propEdges.mp h with ⟨jn, _, name, _, fn, _, rfl⟩
  rfl

theorem hasNodeId_append_left {A : List GraphNode} (B : List GraphNode) {s : String}
    (h : hasNodeId A s) : hasNodeId (A ++ B) s := by
  rcases h with ⟨n, hn, hid⟩
  exact ⟨n, List.mem_append.mpr (Or.inl hn), hid⟩

theorem hasNodeId_append_right (A : List GraphNode) {B : List GraphNode} {s : String}
    (h : hasNodeId B s) : hasNodeId (A ++ B) s := by
  rcases h with ⟨n, hn, hid⟩
  exact ⟨n, List.mem_append.mpr (Or.inr hn), hid⟩

theorem hasNodeId_of_mem {ns : List GraphNode} {n : GraphNode} (h : n ∈ ns) :
    hasNodeId ns n.id := ⟨n, h, rfl⟩

/-- The jsxNodeMap lookup only returns nodes of the jsx column list. -/
theorem jsxLookup_mem {jsxGN : List GraphNode} {key : String} {n : GraphNode}
    (h : jsxLookup jsxGN key = some n) : n ∈ jsxGN :=
  List.mem_reverse.mp (List.mem_of_find?_eq_some h)

/-- An orElse of two finds over node lists yields a member of one of them. -/
theorem orElse_find_mem {A B : List GraphNode} {p q : GraphNode → Bool} {n : GraphNode}
    (h : ((A.find? p).orElse (fun _ => B.find? q)) = some n) : n ∈ A ∨ n ∈ B := by
  cases hA : A.find? p with
  | some a =>
    rw [hA] at h
    exact Or.inl (List.mem_of_find?_eq_some (by rw [hA, Option.some_inj.mp h]))
  | none =>
    rw [hA] at h
    exact Or.inr (List.mem_of_find?_eq_some h)

/-- getElem? and getLast? both produce members. -/
theorem orElse_get_mem {B : List GraphNode} {i : Nat} {n : GraphNode}
    (h : ((B[i]?).orElse (fun _ => B.getLast?)) = some n) : n ∈ B := by
  cases hB : B[i]? with
  | some b =>
    rw [hB] at h
    exact List.getElem?_mem (by rw [hB, Option.some_inj.mp h])
  | none =>
    rw [hB] at h
    rw [List.getLast?_eq_getElem?] at h
    exact List.getElem?_mem h

/-! ## Claim theorems -/

/-- Claim C1 (code bug evidence): for a component whose markup is three nested
    elements, the element-tree analysis does NOT produce three facts at depths
    0, 1, 2: because the recursive walk re-enters every strict descendant of
    each visited element, the grandchild is recorded twice, yielding four facts
    with depths 0, 1, 2 and 1, the grandchild appearing at depth 2 and again at
    depth 1. -/
theorem c1_jsx_depth_duplication :
    ∀ (n1 n2 n3 : JsxName) (a1 a2 a3 : List JsxAttr),
      ((analyzeJsxTree [Jsx.el n1 a1 [Jsx.el n2 a2 [Jsx.el n3 a3 []]]]).map
          (fun f => f.depth)) = [0, 1, 2, 1]
      ∧ ((analyzeJsxTree [Jsx.el n1 a1 [Jsx.el n2 a2 [Jsx.el n3 a3 []]]]).map
          (fun f => f.component)) =
            [getJsxName n1, getJsxName n2, getJsxName n3, getJsxName n3] := by
  intro n1 n2 n3 a1 a2 a3
  constructor <;>
    simp [analyzeJsxTree, emitJsx, emitAll, emitDesc, Jsx.name, List.enum, List.enumFrom]

/-- Claim C9: graph assembly on an absent analysis returns the empty layout
    with the five fixed column x positions 80, 300, 520, 740, 960, width
    spanning all five columns (960 + 200) and the fallback height 800; both
    builder variants agree. -/
theorem c9_absent_input :
    buildGraphFromMappingResult none =
      { nodes := [], edges := [], width := 1160, height := 800
        colX := { independent := 80, state := 300, variableCol := 520, effect := 740, jsx := 960 } }
    ∧ buildGraphFromAnalysis none =
      { nodes := [], edges := [], width := 1160, height := 800
        colX := { independent := 80, state := 300, variableCol := 520, effect := 740, jsx := 960 } } :=
  ⟨rfl, rfl⟩

/-- Claim C10 (code bug evidence): an effect whose dependency array lists the
    same identifier twice keeps both occurrences (analyzeEffectCall does not
    deduplicate dependencies), and graph assembly then emits two
    state-dependency edges with the SAME identity, so the edge identities of
    the produced layout are not pairwise distinct. -/
theorem c10_duplicate_edge_ids :
    exEffectDupDeps.dependencies =
      [{ name := "count", isGlobal := false }, { name := "count", isGlobal := false }]
    ∧ ((buildGraphFromAnalysis (some exAnalysisDupDeps)).edges.map (fun e => e.id)) =
      ["dep-state-hook-1-effect-effect-1-count", "dep-state-hook-1-effect-effect-1-count",
        "mut-effect-effect-1-state-hook-1-setCount"]
    ∧ ¬ ((buildGraphFromAnalysis (some exAnalysisDupDeps)).edges.map (fun e => e.id)).Nodup :=
  ⟨rfl, rfl, by decide⟩

/-- Claim C2 (counterexample): in a layout holding one sequential flow edge and
    one parent-child element edge, the parent-child edge carries kind flow and
    label none, exactly like the sequential flow edge; since GraphEdge has no
    flag or metadata field, nothing but the identity string distinguishes the
    two. -/
theorem c2_structural_edge_indistinct_cex :
    ((buildGraphFromMappingResult (some exMappingTree)).edges.map
        (fun e => (e.kind, e.label))) =
      [(GraphEdgeKind.flow, none), (GraphEdgeKind.flow, none)]
    ∧ ((buildGraphFromMappingResult (some exMappingTree)).edges.map
        (fun e => (e.fromEp.nodeId, e.toEp.nodeId))) =
      [("independent-hook-1", "state-hook-2"), ("jsx-jsx-1", "jsx-jsx-2")] :=
  ⟨rfl, rfl⟩

/-- Claim C3 (counterexample): a non-absent analysis with one state hook and no
    markup yields a layout whose single node sits at y = 80, yet whose height
    is 720 (the 600 jsx fallback plus 120), not the lowest node's y plus 120,
    which would be 200. -/
theorem c3_canvas_height_cex :
    ((buildGraphFromMappingResult (some exMappingNoJsx)).nodes.map (fun n => n.y)) = [80]
    ∧ (buildGraphFromMappingResult (some exMappingNoJsx)).height = 720
    ∧ ¬ (buildGraphFromMappingResult (some exMappingNoJsx)).height = 80 + 120 :=
  ⟨rfl, rfl, by decide⟩

/-- The flat-variant height unfolds the same way as the depth-grouped one. -/
theorem analysisHeight_eq (a : ComponentAnalysis) :
    (buildGraphFromAnalysis (some a)).height =
      (match (flatJsxNodes a.jsxNodes).getLast? with
        | some n => n.y
        | none => 600) + 120 := rfl

/-- Claim C2 (amended): for every element fact recording a non-empty parent
    identity whose parent and child both resolve in the jsx node map, the
    layout contains the parent-to-child edge - but that edge has kind flow and
    no label, and only its identity string, prefixed jsx-tree- instead of
    flow-, tells it apart from a sequential flow edge. -/
theorem c2_structural_edge_amended (m : MappingResult) :
    ∀ j, j ∈ m.jsxNodes → ∀ pid, j.parentId = some pid → ¬(pid = "") →
      ∀ pn, jsxLookup (mappingJsxNodes m.jsxNodes) pid = some pn →
      ∀ cn, jsxLookup (mappingJsxNodes m.jsxNodes) j.id = some cn →
        mkTreeEdge pn cn ∈ (buildGraphFromMappingResult (some m)).edges
        ∧ (mkTreeEdge pn cn).kind = .flow
        ∧ (mkTreeEdge pn cn).label = none
        ∧ (mkTreeEdge pn cn).id = "jsx-tree-" ++ pn.id ++ "-" ++ cn.id := by
  intro j hj pid hp hemp pn hpn cn hcn
  refine ⟨?_, rfl, rfl, rfl⟩
  rw [mappingEdges_eq]
  exact List.mem_append.mpr
    (Or.inr (mem_treeEdges.mpr ⟨j, hj, pid, hp, hemp, pn, cn, hpn, hcn, rfl⟩))

/-- Claim C2 (witness): the amended statement evaluated on the concrete
    two-element tree. -/
theorem c2_structural_edge_witness :
    mkTreeEdge
      { id := "jsx-jsx-1", label := "div", kind := .jsx, x := 960, y := 80
        width := 120, height := 32, meta := some (.jsxMeta 0 []) }
      { id := "jsx-jsx-2", label := "span", kind := .jsx, x := 960, y := 160
        width := 120, height := 32, meta := some (.jsxMeta 1 []) }
      ∈ (buildGraphFromMappingResult (some exMappingTree)).edges :=
  (c2_structural_edge_amended exMappingTree
    { id := "jsx-2", component := "span", depth := 1, parentId := some "jsx-1"
      props := [], definedAt := none }
    (List.mem_cons_of_mem _ (List.mem_cons_self _ _)) "jsx-1" rfl (by decide) _ rfl _ rfl).1

/-- Claim C3 (amended): for every non-absent input, the width is the rightmost
    column x plus 200, but the height tracks only the LAST jsx node: it is that
    node's y plus 120 when jsx nodes exist and the fixed 600 + 120 = 720
    otherwise, regardless of where the other nodes sit; both builder variants
    behave alike. -/
theorem c3_canvas_size_amended (m : MappingResult) (a : ComponentAnalysis) :
    (buildGraphFromMappingResult (some m)).width = buildColumnX.jsx + 200
    ∧ (m.jsxNodes = [] → (buildGraphFromMappingResult (some m)).height = 720)
    ∧ (∀ n, (mappingJsxNodes m.jsxNodes).getLast? = some n →
        (buildGraphFromMappingResult (some m)).height = n.y + 120)
    ∧ (buildGraphFromAnalysis (some a)).width = buildColumnX.jsx + 200
    ∧ (a.jsxNodes = [] → (buildGraphFromAnalysis (some a)).height = 720)
    ∧ (∀ n, (flatJsxNodes a.jsxNodes).getLast? = some n →
        (buildGraphFromAnalysis (some a)).height = n.y + 120) := by
  refine ⟨rfl, ?_, ?_, rfl, ?_, ?_⟩
  · intro h
    rw [mappingHeight_eq, h]
    rfl
  · intro n hl
    rw [mappingHeight_eq, hl]
  · intro h
    rw [analysisHeight_eq, h]
    rfl
  · intro n hl
    rw [analysisHeight_eq, hl]

/-- Claim C3 (witness): the amended statement evaluated on the concrete
    jsx-free input. -/
theorem c3_canvas_size_witness :
    (buildGraphFromMappingResult (some exMappingNoJsx)).width = buildColumnX.jsx + 200
    ∧ (buildGraphFromMappingResult (some exMappingNoJsx)).height = 720 :=
  ⟨(c3_canvas_size_amended exMappingNoJsx exAnalysisDupDeps).1,
    (c3_canvas_size_amended exMappingNoJsx exAnalysisDupDeps).2.1 rfl⟩

/-- Claim C4: on every export set whose default-export name is not the empty
    string and every file name that is not the empty string (the only values
    the analyzer can produce, since identifiers are never empty), the primary
    component selector realizes exactly the five-step order of preference the
    specification states. -/
theorem c4_primary_component_spec (info : ExportInfo) (fileName : Option String)
    (hd : ¬ info.defaultExport = some "") (hf : ¬ fileName = some "") :
    pickPrimaryComponent info fileName = pickPrimarySpec info fileName := by
  unfold pickPrimaryComponent pickPrimarySpec
  cases hdef : info.defaultExport with
  | some d =>
    have hd' : ¬(d = "") := by
      intro h
      exact hd (by rw [hdef, h])
    simp [strTruthy, hd']
  | none =>
    simp only [strTruthy]
    by_cases hlen : info.namedExports.length = 1
    · simp [hlen]
    · simp only [hlen, if_false, Bool.false_eq_true]
      cases hfn : fileName with
      | none =>
        simp
      | some f =>
        have hf' : ¬(f = "") := by
          intro h
          exact hf (by rw [hfn, h])
        simp [strTruthy, hf']

/-- Claim C4 (witness): the refinement evaluated at a concrete export set where
    the file-name fallback decides. -/
theorem c4_primary_component_witness :
    pickPrimaryComponent { defaultExport := none, namedExports := ["A", "B"] } (some "B.tsx")
      = pickPrimarySpec { defaultExport := none, namedExports := ["A", "B"] } (some "B.tsx") :=
  c4_primary_component_spec _ _ (by decide) (by decide)

/-- Claim C5: the hook classifier applies exact-name matching for the seven
    builtin categories first; failing that, a use-prefixed Store-suffixed name
    whose import source mentions zustand classifies as the external-store kind;
    failing that, a call whose import source mentions a known data-fetching
    package and whose lowercased name contains mutation or query classifies as
    the server-query kind; otherwise custom.  The scope ternary sends exactly
    the external-store and server-query kinds to global scope and everything
    else to local scope. -/
theorem c5_hook_classifier_spec :
    (∀ i, classifyHookKind "useState" i = .useState
      ∧ classifyHookKind "useRef" i = .useRef
      ∧ classifyHookKind "useReducer" i = .useReducer
      ∧ classifyHookKind "useEffect" i = .useEffect
      ∧ classifyHookKind "useLayoutEffect" i = .useLayoutEffect
      ∧ classifyHookKind "useCallback" i = .useCallback
      ∧ classifyHookKind "useMemo" i = .useMemo)
    ∧ (∀ n i, ¬ n ∈ builtinHookNames →
        (strStartsWith n "use" && strEndsWith n "Store" && strTruthy i
          && strContains (i.getD "") "zustand") = true →
        classifyHookKind n i = .zustand)
    ∧ (∀ n i, ¬ n ∈ builtinHookNames →
        (strStartsWith n "use" && strEndsWith n "Store" && strTruthy i
          && strContains (i.getD "") "zustand") = false →
        (strTruthy i && (strContains (i.getD "") "reactQuery"
          || strContains (i.getD "") "@tanstack/react-query")) = true →
        (strContains (strToLower n) "mutation" || strContains (strToLower n) "query") = true →
        classifyHookKind n i = .reactQuery)
    ∧ (∀ n i, ¬ n ∈ builtinHookNames →
        (strStartsWith n "use" && strEndsWith n "Store" && strTruthy i
          && strContains (i.getD "") "zustand") = false →
        ((strTruthy i && (strContains (i.getD "") "reactQuery"
            || strContains (i.getD "") "@tanstack/react-query")) = false
          ∨ (strContains (strToLower n) "mutation" || strContains (strToLower n) "query")
              = false) →
        classifyHookKind n i = .custom)
    ∧ scopeFor .zustand = .globalScope
    ∧ scopeFor .reactQuery = .globalScope
    ∧ (∀ k, ¬ k = .zustand → ¬ k = .reactQuery → scopeFor k = .localScope) := by
  refine ⟨?_, ?_, ?_, ?_, rfl, rfl, ?_⟩
  · intro i
    refine ⟨rfl, ?_, ?_, ?_, ?_, ?_, ?_⟩ <;> simp [classifyHookKind]
  · intro n i hb hz
    simp only [builtinHookNames, List.mem_cons, List.not_mem_nil, or_false, not_or] at hb
    obtain ⟨h1, h2, h3, h4, h5, h6, h7⟩ := hb
    simp [classifyHookKind, h1, h2, h3, h4, h5, h6, h7, hz]
  · intro n i hb hz hpkg hname
    simp only [builtinHookNames, List.mem_cons, List.not_mem_nil, or_false, not_or] at hb
    obtain ⟨h1, h2, h3, h4, h5, h6, h7⟩ := hb
    rcases Bool.or_eq_true_iff.mp hname with hm | hq
    · simp [classifyHookKind, h1, h2, h3, h4, h5, h6, h7, hz, hpkg, hm]
    · simp [classifyHookKind, h1, h2, h3, h4, h5, h6, h7, hz, hpkg, hq]
  · intro n i hb hz hrest
    simp only [builtinHookNames, List.mem_cons, List.not_mem_nil, or_false, not_or] at hb
    obtain ⟨h1, h2, h3, h4, h5, h6, h7⟩ := hb
    rcases hrest with hpkg | hname
    · simp [classifyHookKind, h1, h2, h3, h4, h5, h6, h7, hz, hpkg]
    · obtain ⟨hm, hq⟩ := Bool.or_eq_false_iff.mp hname
      by_cases hpkg : (strTruthy i && (strContains (i.getD "") "reactQuery"
          || strContains (i.getD "") "@tanstack/react-query")) = true
      · simp [classifyHookKind, h1, h2, h3, h4, h5, h6, h7, hz, hpkg, hm, hq]
      · simp only [Bool.not_eq_true] at hpkg
        simp [classifyHookKind, h1, h2, h3, h4, h5, h6, h7, hz, hpkg]
  · intro k hkz hkq
    simp [scopeFor, hkz, hkq]

/-- Claim C5 (witness): the classifier clauses evaluated at concrete names
    and concrete import origins. -/
theorem c5_hook_classifier_witness :
    classifyHookKind "useState" (some "zustand") = .useState
    ∧ classifyHookKind "useCartStore" (some "zustand") = .zustand
    ∧ classifyHookKind "useTodosQuery" (some "@tanstack/react-query") = .reactQuery
    ∧ classifyHookKind "useWeird" (some "lodash") = .custom
    ∧ scopeFor .useState = .localScope :=
  ⟨(c5_hook_classifier_spec.1 (some "zustand")).1,
    c5_hook_classifier_spec.2.1 "useCartStore" (some "zustand") (by decide) (by decide),
    c5_hook_classifier_spec.2.2.1 "useTodosQuery" (some "@tanstack/react-query")
      (by decide) (by decide) (by decide) (by decide),
    c5_hook_classifier_spec.2.2.2.1 "useWeird" (some "lodash")
      (by decide) (by decide) (Or.inl (by decide)),
    c5_hook_classifier_spec.2.2.2.2.2.2 .useState (by decide) (by decide)⟩

/-- Claim C6: the mutation-candidate derivation strips a literal set prefix and
    lowercases the following capital, otherwise keeps the name verbatim; for
    every setter recorded on an effect or callback fact whose node resolves,
    the first state node whose label starts with the candidate receives a
    state-mutation edge from that node; and a candidate matching no state node
    yields no state-mutation edge labelled with that setter anywhere in the
    layout. -/
theorem c6_mutation_edges (m : MappingResult) :
    (∀ (c : Char) (r : List Char), 'A' ≤ c → c ≤ 'Z' →
        setterToState (String.mk ('s' :: 'e' :: 't' :: c :: r)) = String.mk (Char.toLower c :: r))
    ∧ (∀ s : String, setterToState s = s
        ∨ ∃ (c : Char) (r : List Char),
            s = String.mk ('s' :: 'e' :: 't' :: c :: r) ∧ 'A' ≤ c ∧ c ≤ 'Z')
    ∧ (∀ e, e ∈ m.effects → ∀ en,
        (effectNodesOf m.effects m.callbacks).find?
            (fun n => n.id == "effect-" ++ e.id) = some en →
        ∀ s, s ∈ e.setters → ∀ sn,
          (stateNodesOf m.hooks).find?
              (fun n => strStartsWith n.label (setterToState s)) = some sn →
          mkMutEdge "mut-" en sn s ∈ (buildGraphFromMappingResult (some m)).edges)
    ∧ (∀ cb, cb ∈ m.callbacks → ∀ cn,
        (effectNodesOf m.effects m.callbacks).find?
            (fun n => n.id == "effect-" ++ cb.id) = some cn →
        ∀ s, s ∈ cb.setters → ∀ sn,
          (stateNodesOf m.hooks).find?
              (fun n => strStartsWith n.label (setterToState s)) = some sn →
          mkMutEdge "cb-mut-" cn sn s ∈ (buildGraphFromMappingResult (some m)).edges)
    ∧ (∀ s : String,
        (stateNodesOf m.hooks).find?
            (fun n => strStartsWith n.label (setterToState s)) = none →
        ∀ ed, ed ∈ (buildGraphFromMappingResult (some m)).edges →
          ed.kind = .stateMutation → ¬ ed.label = some s) := by
  refine ⟨?_, ?_, ?_, ?_, ?_⟩
  · intro c r h1 h2
    unfold setterToState
    simp [h1, h2]
  · intro s
    unfold setterToState
    split
    · rename_i c rest heq
      split
      · rename_i hcr
        refine Or.inr ⟨c, rest, ?_, hcr.1, hcr.2⟩
        cases s
        simp at heq
        rw [heq]
      · exact Or.inl rfl
    · exact Or.inl rfl
  · intro e he en hen s hs sn hsn
    rw [mappingEdges_eq]
    refine List.mem_append.mpr (Or.inl (List.mem_append.mpr (Or.inl
      (List.mem_append.mpr (Or.inl (List.mem_append.mpr (Or.inr ?_)))))))
    exact mem_effectEdges.mpr
      ⟨e, he, en, hen, Or.inr (mem_mutEdgesFor.mpr ⟨s, hs, sn, hsn, rfl⟩)⟩
  · intro cb hcb cn hcn s hs sn hsn
    rw [mappingEdges_eq]
    refine List.mem_append.mpr (Or.inl (List.mem_append.mpr (Or.inl
      (List.mem_append.mpr (Or.inr ?_)))))
    exact mem_callbackEdges.mpr ⟨cb, hcb, cn, hcn, mem_mutEdgesFor.mpr ⟨s, hs, sn, hsn, rfl⟩⟩
  · intro s hnone ed hed hk hl
    rw [mappingEdges_eq] at hed
    rcases List.mem_append.mp hed with hed | hed
    · rcases List.mem_append.mp hed with hed | hed
      · rcases List.mem_append.mp hed with hed | hed
        · rcases List.mem_append.mp hed with hed | hed
          · rw [kind_of_mem_seqFlowEdges hed] at hk
            simp at hk
          · rcases mem_effectEdges.mp hed with ⟨e, _, en, _, hor | hor⟩
            · rcases mem_depEdgesFor.mp hor with ⟨dep, _, sn, _, rfl⟩
              simp [mkDepEdge] at hk
            · rcases mem_mutEdgesFor.mp hor with ⟨s', _, sn, hsn, rfl⟩
              have : s' = s := by
                simpa [mkMutEdge] using hl
              rw [this] at hsn
              rw [hnone] at hsn
              exact Option.noConfusion hsn
        · rcases mem_callbackEdges.mp hed with ⟨cb, _, cn, _, hmem⟩
          rcases mem_mutEdgesFor.mp hmem with ⟨s', _, sn, hsn, rfl⟩
          have : s' = s := by
            simpa [mkMutEdge] using hl
          rw [this] at hsn
          rw [hnone] at hsn
          exact Option.noConfusion hsn
      · rw [kind_of_mem_propEdges hed] at hk
        simp at hk
    · rcases mem_treeEdges.mp hed with ⟨j, _, pid, _, _, pn, cn, _, _, rfl⟩
      simp [mkTreeEdge] at hk

/-- Claim C6 (witness): the concrete setter setCount on the concrete effect
    connects to the state node labelled count. -/
theorem c6_mutation_edges_witness :
    mkMutEdge "mut-"
      { id := "effect-effect-1", label := "useEffect", kind := .effect, x := 740, y := 80
        width := 120, height := 32
        meta := some (.effectMeta
          { id := "effect-1", hookKind := .useEffect
            dependencies := [{ name := "count", isGlobal := false }]
            setters := ["setCount"], refs := [], definedAt := none }) }
      { id := "state-hook-1", label := "count", kind := .state, x := 300, y := 80
        width := 120, height := 32, meta := some (.hookMeta .useState .localScope) }
      "setCount"
      ∈ (buildGraphFromMappingResult (some exMappingMutation)).edges :=
  (c6_mutation_edges exMappingMutation).2.2.1
    { id := "effect-1", hookKind := .useEffect
      dependencies := [{ name := "count", isGlobal := false }]
      setters := ["setCount"], refs := [], definedAt := none }
    (List.mem_cons_self _ _) _ rfl "setCount" (List.mem_cons_self _ _) _ rfl

/-- Claim C7: the sequential flow rule pairs the independent node at each index
    with the state node at the same index, spills extra independent nodes onto
    the last state node, and produces nothing between the two columns when
    either column is empty - in that case every flow-kind edge of the layout is
    one of the jsx parent-child edges. -/
theorem c7_flow_edges (m : MappingResult) :
    (∀ (i : Nat) (a b : GraphNode),
        (independentNodesOf m.hooks)[i]? = some a →
        (stateNodesOf m.hooks)[i]? = some b →
        mkFlowEdge a b none ∈ (buildGraphFromMappingResult (some m)).edges)
    ∧ (∀ (i : Nat) (a b : GraphNode),
        (independentNodesOf m.hooks)[i]? = some a →
        (stateNodesOf m.hooks).length ≤ i →
        (stateNodesOf m.hooks).getLast? = some b →
        mkFlowEdge a b none ∈ (buildGraphFromMappingResult (some m)).edges)
    ∧ ((independentNodesOf m.hooks = [] ∨ stateNodesOf m.hooks = []) →
        ∀ ed, ed ∈ (buildGraphFromMappingResult (some m)).edges → ed.kind = .flow →
          ed ∈ treeEdges (mappingJsxNodes m.jsxNodes) m.jsxNodes) := by
  refine ⟨?_, ?_, ?_⟩
  · intro i a b ha hb
    have hia : i < (independentNodesOf m.hooks).length := by
      by_contra hcon
      push_neg at hcon
      rw [List.getElem?_eq_none hcon] at ha
      exact Option.noConfusion ha
    have hib : i < (stateNodesOf m.hooks).length := by
      by_contra hcon
      push_neg at hcon
      rw [List.getElem?_eq_none hcon] at hb
      exact Option.noConfusion hb
    rw [mappingEdges_eq]
    refine List.mem_append.mpr (Or.inl (List.mem_append.mpr (Or.inl
      (List.mem_append.mpr (Or.inl (List.mem_append.mpr (Or.inl ?_)))))))
    rw [seqFlowEdges_eq_of_ne (Nat.lt_of_le_of_lt (Nat.zero_le i) hia)
      (Nat.lt_of_le_of_lt (Nat.zero_le i) hib)]
    refine mem_connectSequential.mpr ⟨i, a, b, ha, ?_, rfl⟩
    rw [hb]
    rfl
  · intro i a b ha hle hlast
    have hia : i < (independentNodesOf m.hooks).length := by
      by_contra hcon
      push_neg at hcon
      rw [List.getElem?_eq_none hcon] at ha
      exact Option.noConfusion ha
    have hstpos : 0 < (stateNodesOf m.hooks).length := by
      rcases hcase : stateNodesOf m.hooks with _ | ⟨x, xs⟩
      · rw [hcase] at hlast
        simp at hlast
      · simp [hcase]
    rw [mappingEdges_eq]
    refine List.mem_append.mpr (Or.inl (List.mem_append.mpr (Or.inl
      (List.mem_append.mpr (Or.inl (List.mem_append.mpr (Or.inl ?_)))))))
    rw [seqFlowEdges_eq_of_ne (Nat.lt_of_le_of_lt (Nat.zero_le i) hia) hstpos]
    refine mem_connectSequential.mpr ⟨i, a, b, ha, ?_, rfl⟩
    rw [List.getElem?_eq_none hle]
    exact hlast
  · intro hor ed hed hk
    have hseq : seqFlowEdges (independentNodesOf m.hooks) (stateNodesOf m.hooks) = [] := by
      unfold seqFlowEdges
      rw [if_neg]
      rintro ⟨h1, h2⟩
      rcases hor with h | h
      · rw [h] at h1
        simp at h1
      · rw [h] at h2
        simp at h2
    rw [mappingEdges_eq, hseq] at hed
    simp only [List.nil_append] at hed
    rcases List.mem_append.mp hed with hed | hed
    · rcases List.mem_append.mp hed with hed | hed
      · rcases List.mem_append.mp hed with hed | hed
        · rcases kind_of_mem_effectEdges hed with h | h <;>
            · rw [hk] at h
              exact GraphEdgeKind.noConfusion h
        · have h := kind_of_mem_callbackEdges hed
          rw [hk] at h
          exact GraphEdgeKind.noConfusion h
      · have h := kind_of_mem_propEdges hed
        rw [hk] at h
        exact GraphEdgeKind.noConfusion h
    · exact hed

/-- Claim C7 (witness): two independent nodes against one state node - index 0
    pairs positionally, index 1 spills onto the last state node. -/
theorem c7_flow_edges_witness :
    mkFlowEdge
      { id := "independent-hook-1", label := "boxRef", kind := .independent, x := 80, y := 80
        width := 120, height := 32, meta := some (.hookMeta .useRef .localScope) }
      { id := "state-hook-3", label := "count", kind := .state, x := 300, y := 80
        width := 120, height := 32, meta := some (.hookMeta .useState .localScope) }
      none ∈ (buildGraphFromMappingResult (some exMappingTwoRefs)).edges
    ∧ mkFlowEdge
      { id := "independent-hook-2", label := "otherRef", kind := .independent, x := 80, y := 130
        width := 120, height := 32, meta := some (.hookMeta .useRef .localScope) }
      { id := "state-hook-3", label := "count", kind := .state, x := 300, y := 80
        width := 120, height := 32, meta := some (.hookMeta .useState .localScope) }
      none ∈ (buildGraphFromMappingResult (some exMappingTwoRefs)).edges :=
  ⟨(c7_flow_edges exMappingTwoRefs).1 0 _ _ rfl rfl,
    (c7_flow_edges exMappingTwoRefs).2.1 1 _ _ rfl (by decide) rfl⟩

/-! ## Endpoint lemmas feeding the no-dangling-edges claim -/

theorem endpoints_seqFlow {A B : List GraphNode} {ed : GraphEdge}
    (h : ed ∈ seqFlowEdges A B) :
    hasNodeId A ed.fromEp.nodeId ∧ hasNodeId B ed.toEp.nodeId := by
  rcases mem_connectSequential.mp (seqFlowEdges_subset h) with ⟨i, a, tgt, h1, h2, rfl⟩
  exact ⟨hasNodeId_of_mem (List.getElem?_mem h1), hasNodeId_of_mem (orElse_get_mem h2)⟩

theorem endpoints_effectEdges {st eff : List GraphNode} {effects : List AnalyzedEffect}
    {ed : GraphEdge} (h : ed ∈ effectEdges st eff effects) :
    (hasNodeId st ed.fromEp.nodeId ∨ hasNodeId eff ed.fromEp.nodeId)
    ∧ (hasNodeId st ed.toEp.nodeId ∨ hasNodeId eff ed.toEp.nodeId) := by
  rcases mem_effectEdges.mp h with ⟨e, _, en, hfind, hor | hor⟩
  · rcases mem_depEdgesFor.mp hor with ⟨dep, _, sn, hsn, rfl⟩
    exact ⟨Or.inl (hasNodeId_of_mem (List.mem_of_find?_eq_some hsn)),
      Or.inr (hasNodeId_of_mem (List.mem_of_find?_eq_some hfind))⟩
  · rcases mem_mutEdgesFor.mp hor with ⟨s, _, sn, hsn, rfl⟩
    exact ⟨Or.inr (hasNodeId_of_mem (List.mem_of_find?_eq_some hfind)),
      Or.inl (hasNodeId_of_mem (List.mem_of_find?_eq_some hsn))⟩

theorem endpoints_callbackEdges {st eff : List GraphNode} {callbacks : List AnalyzedCallback}
    {ed : GraphEdge} (h : ed ∈ callbackEdges st eff callbacks) :
    hasNodeId eff ed.fromEp.nodeId ∧ hasNodeId st ed.toEp.nodeId := by
  rcases mem_callbackEdges.mp h with ⟨cb, _, cn, hfind, hmem⟩
  rcases mem_mutEdgesFor.mp hmem with ⟨s, _, sn, hsn, rfl⟩
  exact ⟨hasNodeId_of_mem (List.mem_of_find?_eq_some hfind),
    hasNodeId_of_mem (List.mem_of_find?_eq_some hsn)⟩

theorem endpoints_propEdges {ind st jsxGN : List GraphNode} {ed : GraphEdge}
    (h : ed ∈ propEdges ind st jsxGN) :
    (hasNodeId st ed.fromEp.nodeId ∨ hasNodeId ind ed.fromEp.nodeId)
    ∧ hasNodeId jsxGN ed.toEp.nodeId := by
  rcases mem_propEdges.mp h with ⟨jn, hj, name, _, fn, hor, rfl⟩
  rcases orElse_find_mem hor with hmem | hmem
  · exact ⟨Or.inl (hasNodeId_of_mem hmem), hasNodeId_of_mem hj⟩
  · exact ⟨Or.inr (hasNodeId_of_mem hmem), hasNodeId_of_mem hj⟩

theorem endpoints_treeEdges {jsxGN : List GraphNode} {facts : List MappingJsxNode}
    {ed : GraphEdge} (h : ed ∈ treeEdges jsxGN facts) :
    hasNodeId jsxGN ed.fromEp.nodeId ∧ hasNodeId jsxGN ed.toEp.nodeId := by
  rcases mem_treeEdges.mp h with ⟨j, _, pid, _, _, pn, cn, hpn, hcn, rfl⟩
  exact ⟨hasNodeId_of_mem (jsxLookup_mem hpn), hasNodeId_of_mem (jsxLookup_mem hcn)⟩

theorem hasNodeId_quad_1 {A B C D : List GraphNode} {s : String} (h : hasNodeId A s) :
    hasNodeId (A ++ B ++ C ++ D) s :=
  hasNodeId_append_left _ (hasNodeId_append_left _ (hasNodeId_append_left _ h))

theorem hasNodeId_quad_2 {A B C D : List GraphNode} {s : String} (h : hasNodeId B s) :
    hasNodeId (A ++ B ++ C ++ D) s :=
  hasNodeId_append_left _ (hasNodeId_append_left _ (hasNodeId_append_right _ h))

theorem hasNodeId_quad_3 {A B C D : List GraphNode} {s : String} (h : hasNodeId C s) :
    hasNodeId (A ++ B ++ C ++ D) s :=
  hasNodeId_append_left _ (hasNodeId_append_right _ h)

theorem hasNodeId_quad_4 {A B C D : List GraphNode} {s : String} (h : hasNodeId D s) :
    hasNodeId (A ++ B ++ C ++ D) s :=
  hasNodeId_append_right _ h

/-- Claim C8: in both builder variants, every produced edge points at node
    identities present in the same layout's node list. -/
theorem c8_no_dangling_edges (mr : Option MappingResult) (ao : Option ComponentAnalysis) :
    (∀ ed, ed ∈ (buildGraphFromMappingResult mr).edges →
        hasNodeId (buildGraphFromMappingResult mr).nodes ed.fromEp.nodeId
        ∧ hasNodeId (buildGraphFromMappingResult mr).nodes ed.toEp.nodeId)
    ∧ (∀ ed, ed ∈ (buildGraphFromAnalysis ao).edges →
        hasNodeId (buildGraphFromAnalysis ao).nodes ed.fromEp.nodeId
        ∧ hasNodeId (buildGraphFromAnalysis ao).nodes ed.toEp.nodeId) := by
  constructor
  · cases mr with
    | none =>
      intro ed hed
      simp [buildGraphFromMappingResult] at hed
    | some m =>
      intro ed hed
      rw [mappingEdges_eq] at hed
      rw [mappingNodes_eq]
      rcases List.mem_append.mp hed with hed | hed
      · rcases List.mem_append.mp hed with hed | hed
        · rcases List.mem_append.mp hed with hed | hed
          · rcases List.mem_append.mp hed with hed | hed
            · obtain ⟨hf, ht⟩ := endpoints_seqFlow hed
              exact ⟨hasNodeId_quad_1 hf, hasNodeId_quad_2 ht⟩
            · obtain ⟨hf, ht⟩ := endpoints_effectEdges hed
              refine ⟨?_, ?_⟩
              · rcases hf with h | h
                · exact hasNodeId_quad_2 h
                · exact hasNodeId_quad_3 h
              · rcases ht with h | h
                · exact hasNodeId_quad_2 h
                · exact hasNodeId_quad_3 h
          · obtain ⟨hf, ht⟩ := endpoints_callbackEdges hed
            exact ⟨hasNodeId_quad_3 hf, hasNodeId_quad_2 ht⟩
        · obtain ⟨hf, ht⟩ := endpoints_propEdges hed
          refine ⟨?_, hasNodeId_quad_4 ht⟩
          rcases hf with h | h
          · exact hasNodeId_quad_2 h
          · exact hasNodeId_quad_1 h
      · obtain ⟨hf, ht⟩ := endpoints_treeEdges hed
        exact ⟨hasNodeId_quad_4 hf, hasNodeId_quad_4 ht⟩
  · cases ao with
    | none =>
      intro ed hed
      simp [buildGraphFromAnalysis] at hed
    | some a =>
      intro ed hed
      rw [analysisEdges_eq] at hed
      rw [analysisNodes_eq]
      rcases List.mem_append.mp hed with hed | hed
      · rcases List.mem_append.mp hed with hed | hed
        · rcases List.mem_append.mp hed with hed | hed
          · obtain ⟨hf, ht⟩ := endpoints_seqFlow hed
            exact ⟨hasNodeId_quad_1 hf, hasNodeId_quad_2 ht⟩
          · obtain ⟨hf, ht⟩ := endpoints_effectEdges hed
            refine ⟨?_, ?_⟩
            · rcases hf with h | h
              · exact hasNodeId_quad_2 h
              · exact hasNodeId_quad_3 h
            · rcases ht with h | h
              · exact hasNodeId_quad_2 h
              · exact hasNodeId_quad_3 h
        · obtain ⟨hf, ht⟩ := endpoints_callbackEdges hed
          exact ⟨hasNodeId_quad_3 hf, hasNodeId_quad_2 ht⟩
      · obtain ⟨hf, ht⟩ := endpoints_propEdges hed
        refine ⟨?_, hasNodeId_quad_4 ht⟩
        rcases hf with h | h
        · exact hasNodeId_quad_2 h
        · exact hasNodeId_quad_1 h

/-- Claim C8 (witness): the invariant evaluated at a concrete edge of a
    concrete layout. -/
theorem c8_no_dangling_edges_witness :
    hasNodeId (buildGraphFromMappingResult (some exMappingTree)).nodes "independent-hook-1"
    ∧ hasNodeId (buildGraphFromMappingResult (some exMappingTree)).nodes "state-hook-2" :=
  (c8_no_dangling_edges (some exMappingTree) (some exAnalysisDupDeps)).1
    (mkFlowEdge
      { id := "independent-hook-1", label := "boxRef", kind := .independent, x := 80, y := 80
        width := 120, height := 32, meta := some (.hookMeta .useRef .localScope) }
      { id := "state-hook-2", label := "count", kind := .state, x := 300, y := 80
        width := 120, height := 32, meta := some (.hookMeta .useState .localScope) }
      none)
    (by decide)

end RenderViz
